import Mathlib

/-!
Verification development for the tempo-planned-time-cli repository.

The logic under verification lives in src/lib/command-base.js (class Get):
date-range resolution (getQueryFromAndToDates, validateArgs), plan interval
extraction (getPlanDateRanges), day mapping (mapPlans), configuration
validation (validateConfig) and the pre-network part of execute.

Modelling conventions, at calendar-day granularity:

The JavaScript code handles dates as moment objects at day granularity
(every moment that matters is pinned with startOf or endOf of a day, or is
produced by whole-day arithmetic).  A valid day-granularity moment is
modelled as its epoch day number (an Int counting days since 1970-01-01);
an invalid moment (failed parse) is modelled as an Option none.  The
conversion from a calendar date to its day number follows the standard
civil-calendar algorithm (days_from_civil).

String date parsing is moment(str, "YYYY-MM-DD") in NON-strict mode, which
is forgiving: each numeric token (YYYY, MM, DD) is matched by searching the
remaining input for the first digit run (at most 4, 2, 2 digits), a literal
dash consumes up to and including the first dash if one exists, leftover or
skipped characters are tolerated, missing month and day default to 1, and
the result is invalid only when no token matched any digits at all or the
month or day overflows the calendar.  This is what momentjs does with a
format string when the strict flag is not passed, as in the source.

Duration humanization is moment.duration(sec, "seconds").humanize() with
the default thresholds and the default English locale. Rounding is the
JavaScript Math.round, half away from zero, on the exact rational value.
-/

/-! ## Calendar-day arithmetic -/

/-- Gregorian leap-year test (as used by moment for daysInMonth). -/
def isLeapYear (y : Int) : Bool :=
  (y % 4 == 0 && y % 100 != 0) || y % 400 == 0

/-- Number of days in a month of a given year (moment daysInMonth). -/
def daysInMonth (y : Int) (m : Nat) : Nat :=
  if m = 2 then (if isLeapYear y then 29 else 28)
  else if m = 4 ∨ m = 6 ∨ m = 9 ∨ m = 11 then 30
  else 31

/-- Epoch day number of a calendar date (days since 1970-01-01), the
standard civil-from-days algorithm.  This is the day-granularity value of a
valid moment for the date y-m-d. -/
def toDayNum (y : Int) (m d : Nat) : Int :=
  let yy : Int := if m ≤ 2 then y - 1 else y
  let era : Int := (if 0 ≤ yy then yy else yy - 399) / 400
  let yoe : Int := yy - era * 400
  let mp : Int := ((m : Int) + 9) % 12
  let doy : Int := (153 * mp + 2) / 5 + (d : Int) - 1
  let doe : Int := yoe * 365 + yoe / 4 - yoe / 100 + doy
  era * 146097 + doe - 719468

/-! ## moment(str, "YYYY-MM-DD") non-strict parsing -/

/-- Numeric value of a digit character. -/
def digitVal (c : Char) : Nat := c.toNat - 48

/-- Take at most cap leading digits off the character list, returning their
values and the remainder. -/
def takeDigitsAux : Nat → List Char → (List Nat × List Char)
  | _, [] => ([], [])
  | 0, cs => ([], cs)
  | Nat.succ k, c :: cs =>
    if c.isDigit then
      let p := takeDigitsAux k cs
      (digitVal c :: p.1, p.2)
    else ([], c :: cs)

/-- Find the first digit run in the input, as the non-anchored regexes of
moment format tokens do, and read at most cap digits from it.  Returns the
numeric value and the remaining input, or none when the input holds no
digit at all (the format token stays unused). -/
def findDigitRun (cap : Nat) : List Char → Option (Nat × List Char)
  | [] => none
  | c :: cs =>
    if c.isDigit then
      let p := takeDigitsAux cap (c :: cs)
      some (p.1.foldl (fun a d => a * 10 + d) 0, p.2)
    else findDigitRun cap cs

/-- Consume input up to and including the first dash, as the literal dash
of the format does in non-strict mode; when there is no dash the input is
left untouched (the literal is simply unmatched, which is tolerated). -/
def skipDash (cs : List Char) : List Char :=
  if cs.any (fun c => c = '-') then (cs.dropWhile (fun c => c ≠ '-')).drop 1
  else cs

/-- Overflow check applied by moment after parsing: month 1..12 and day
1..daysInMonth. -/
def validMonthDay (y : Int) (m d : Nat) : Bool :=
  1 ≤ m && m ≤ 12 && 1 ≤ d && d ≤ daysInMonth y m

/-- moment(str, "YYYY-MM-DD") without the strict flag, at day granularity:
some epoch day number when the resulting moment isValid(), none otherwise.
Missing month and day default to January and 1; the moment is invalid when
no digits were found at all (the empty parsing flag) or when the month or
day overflows. -/
def parseYMD (s : String) : Option Int :=
  match findDigitRun 4 s.data with
  | none => none
  | some (y, r1) =>
    match findDigitRun 2 (skipDash r1) with
    | none => some (toDayNum (y : Int) 1 1)
    | some (m, r2) =>
      match findDigitRun 2 (skipDash r2) with
      | none =>
        if validMonthDay (y : Int) m 1 then some (toDayNum (y : Int) m 1) else none
      | some (d, _) =>
        if validMonthDay (y : Int) m d then some (toDayNum (y : Int) m d) else none

/-- Modelled from the spec: parsing under the exact format YYYY-MM-DD, the
reading the spec gives of date validation (four digit year, dash, two digit
zero-padded month, dash, two digit zero-padded day, nothing else, month and
day within calendar range).  The source itself uses the forgiving
non-strict moment parse parseYMD; this definition exists to compare the
claimed exact-format behaviour against the source behaviour. -/
def specExactParse (s : String) : Option Int :=
  match s.data with
  | [y1, y2, y3, y4, s1, m1, m2, s2, d1, d2] =>
    if y1.isDigit && y2.isDigit && y3.isDigit && y4.isDigit &&
       s1 = '-' && m1.isDigit && m2.isDigit &&
       s2 = '-' && d1.isDigit && d2.isDigit then
      let y := ((digitVal y1 * 10 + digitVal y2) * 10 + digitVal y3) * 10 + digitVal y4
      let m := digitVal m1 * 10 + digitVal m2
      let d := digitVal d1 * 10 + digitVal d2
      if validMonthDay (y : Int) m d then some (toDayNum (y : Int) m d) else none
    else none
  | _ => none

/-! ## moment.duration(sec, "seconds").humanize() -/

/-- JavaScript Math.round of the exact rational a / b, for b positive:
half rounds up. -/
def roundDiv (a b : Nat) : Nat := (2 * a + b) / (2 * b)

/-- moment.duration(sec, "seconds").humanize() in the default English
locale with the default thresholds (ss 44, s 45, m 45, h 22, d 26, M 11,
no week unit).  The rounded unit values follow duration.as: minutes are
sec/60, hours sec/3600, days sec/86400, months days/(146097/4800), years
months/12, each rounded with Math.round. -/
def humanize (sec : Nat) : String :=
  let minutes := roundDiv sec 60
  let hours := roundDiv sec 3600
  let days := roundDiv sec 86400
  let months := roundDiv (sec * 4800) 12622780800
  let years := roundDiv (sec * 400) 12622780800
  if sec ≤ 44 then "a few seconds"
  else if minutes ≤ 1 then "a minute"
  else if minutes ≤ 44 then s!"{minutes} minutes"
  else if hours ≤ 1 then "an hour"
  else if hours ≤ 21 then s!"{hours} hours"
  else if days ≤ 1 then "a day"
  else if days ≤ 25 then s!"{days} days"
  else if months ≤ 1 then "a month"
  else if months ≤ 10 then s!"{months} months"
  else if years ≤ 1 then "a year"
  else s!"{years} years"

/-! ## Data model of the Tempo API records (section 3 of the spec) -/

/-- One entry of plan.dates.values: a raw sub-range.  The from and to
fields of the JSON object are named vfrom and vto here because from is a
reserved word in Lean.  timePlannedSeconds is an Option because the field
may be absent; the code treats zero and absent alike (falsy). -/
structure PlanDateValue where
  vfrom : String
  vto : String
  timePlannedSeconds : Option Nat
deriving Repr, DecidableEq

/-- plan.planItem, holding the item reference URL in its self field. -/
structure PlanItemRef where
  self : String
deriving Repr, DecidableEq

/-- A plan record returned by the Tempo API, with the fields mapPlans and
getPlanDateRanges read: planItem.self, description, secondsPerDay, and
dates.values (flattened here to datesValues). -/
structure Plan where
  planItem : PlanItemRef
  description : String
  secondsPerDay : Nat
  datesValues : List PlanDateValue
deriving Repr, DecidableEq

/-- The planData object built inside mapPlans for a plan: a PlannedItem. -/
structure PlanData where
  task : String
  taskKey : String
  description : String
  secondsPerDay : Nat
  plannedTime : String
deriving Repr, DecidableEq

/-- A non-degenerate day-granularity moment range [startOf day lo,
endOf day hi], written by its inclusive day-number bounds. -/
structure DateRange where
  lo : Int
  hi : Int
deriving Repr, DecidableEq

/-- The object mapPlans returns: JavaScript object literals preserve the
insertion order of non-integer string keys such as date strings, so the
mapping is an ordered association list, day key first, list of planData
second.  Day keys stand for their YYYY-MM-DD format strings, which are in
bijection with day numbers. -/
abbrev DayMapping := List (Int × List PlanData)

/-- The JavaScript falsy test on the timePlannedSeconds field: absent or
zero. -/
def falsySeconds : Option Nat → Bool
  | none => true
  | some n => n == 0

/-- plan.planItem.self.substring(plan.planItem.self.lastIndexOf(slash) + 1):
everything after the last slash, the whole string when it has no slash. -/
def taskKeyOf (s : String) : String :=
  ⟨(s.data.reverse.takeWhile (fun c => c ≠ '/')).reverse⟩

/-- The planData object literal built in mapPlans for one plan record.
Note that plannedTime humanizes plan.secondsPerDay, the record-level
field. -/
def makePlanData (plan : Plan) : PlanData :=
  { task := plan.planItem.self
    taskKey := taskKeyOf plan.planItem.self
    description := plan.description
    secondsPerDay := plan.secondsPerDay
    plannedTime := humanize plan.secondsPerDay }

/-! ## Get.getPlanDateRanges (the Plan Interval Extractor) -/

/-- The range built for one sub-range with truthy seconds: parse both
dates, swap when the end moment isBefore the start moment, then span
startOf day to endOf day.  When either parse fails the comparison
isBefore is false, no swap happens, and the built range is NaN-valued;
a NaN range is modelled as none (see intersect below: every comparison
against NaN is false, so intersecting with a NaN range yields null
exactly like a disjoint range does). -/
def planRangeOfValue (v : PlanDateValue) : Option DateRange :=
  match parseYMD v.vfrom, parseYMD v.vto with
  | some s, some e => some (if e < s then ⟨e, s⟩ else ⟨s, e⟩)
  | _, _ => none

/-- The forEach of getPlanDateRanges over plan.dates.values: sub-ranges
with falsy timePlannedSeconds are skipped, the rest push their range in
order. -/
def planDateRangesOfValues : List PlanDateValue → List (Option DateRange)
  | [] => []
  | v :: rest =>
    if falsySeconds v.timePlannedSeconds then planDateRangesOfValues rest
    else planRangeOfValue v :: planDateRangesOfValues rest

/-- Get.getPlanDateRanges. -/
def getPlanDateRanges (plan : Plan) : List (Option DateRange) :=
  planDateRangesOfValues plan.datesValues

/-! ## Get.mapPlans (the Day Mapper) -/

/-- Array.from(range.by(days)) for a day-aligned range: the list of day
numbers from lo to hi inclusive.  Relied on only for lo less than or
equal to hi, which holds for the query range after validateArgs and for
every intersection result. -/
def daysList (lo hi : Int) : List Int :=
  if hi < lo then [] else (List.range (hi - lo + 1).toNat).map (fun (i : Nat) => lo + (i : Int))

/-- moment-range intersect of two non-degenerate day-aligned ranges
[startOf day q.lo, endOf day q.hi] and [startOf day p.lo, endOf day p.hi]:
null (none) when they are disjoint, otherwise the overlap, which at day
granularity runs from the later start to the earlier end.  The overlap
is non-empty exactly when p.lo is at most q.hi and q.lo is at most p.hi
(timestamps of startOf and endOf of a day never coincide, so the strict
and non-strict endpoint comparisons in the library all agree with this
at day granularity). -/
def intersect (q p : DateRange) : Option DateRange :=
  if p.lo ≤ q.hi && q.lo ≤ p.hi then some ⟨max q.lo p.lo, min q.hi p.hi⟩
  else none

/-- mappedPlans[day].push(planData) for one day key: the JavaScript object
update at that key (keys are unique, and every pushed day lies inside the
initialized query keys). -/
def pushOnDay : DayMapping → Int → PlanData → DayMapping
  | [], _, _ => []
  | kv :: rest, day, pd =>
    (if kv.1 = day then (kv.1, kv.2 ++ [pd]) else kv) :: pushOnDay rest day pd

/-- The forEach pushing planData onto every day of the applicable range. -/
def pushDays : List Int → PlanData → DayMapping → DayMapping
  | [], _, m => m
  | d :: rest, pd, m => pushDays rest pd (pushOnDay m d pd)

/-- One iteration of the inner forEach of mapPlans, for one plan range:
queryRange.intersect(planRange) followed by pushing planData onto every
day of the intersection.  When the plan range is NaN (none) or the
intersection is null, the code calls .by on null and throws a TypeError:
the thrown exception is modelled as none. -/
def applyRange (f t : Int) (pd : PlanData) (m : DayMapping) :
    Option DateRange → Option DayMapping
  | none => none
  | some rng =>
    match intersect ⟨f, t⟩ rng with
    | none => none
    | some a => some (pushDays (daysList a.lo a.hi) pd m)

/-- The forEach over the ranges of one plan, propagating a thrown
exception. -/
def applyRanges (f t : Int) (pd : PlanData) :
    List (Option DateRange) → DayMapping → Option DayMapping
  | [], m => some m
  | r :: rest, m =>
    match applyRange f t pd m r with
    | none => none
    | some m1 => applyRanges f t pd rest m1

/-- Processing of one plan inside mapPlans: build its ranges, then for
each range intersect and distribute the planData built from the plan. -/
def processPlan (f t : Int) (plan : Plan) (m : DayMapping) : Option DayMapping :=
  applyRanges f t (makePlanData plan) (getPlanDateRanges plan) m

/-- The outer forEach of mapPlans over all plans. -/
def mapPlansGo (f t : Int) : List Plan → DayMapping → Option DayMapping
  | [], m => some m
  | p :: ps, m =>
    match processPlan f t p m with
    | none => none
    | some m1 => mapPlansGo f t ps m1

/-- Get.mapPlans: initialize one empty list per day of the query range,
then fold all plans in; some mapping on normal completion, none when the
missing null check after intersect lets a TypeError escape. -/
def mapPlans (f t : Int) (plans : List Plan) : Option DayMapping :=
  mapPlansGo f t plans ((daysList f t).map (fun d => (d, ([] : List PlanData))))

/-- Concatenation of all planData lists of a mapping, used to speak about
every PlannedItem the mapper produced. -/
def itemsOf : DayMapping → List PlanData
  | [] => []
  | kv :: rest => kv.2 ++ itemsOf rest

/-! ## Date Range Resolver: getQueryFromAndToDates, validateArgs -/

/-- The yargs argv fields the get command reads. -/
structure Argv where
  fromDate : String
  toDate : String
  tomorrow : Bool
  week : Bool
deriving Repr, DecidableEq

/-- The four validation errors validateArgs can throw, in the order the
code tests them (the spec names them ConflictingOptions, InvalidDate,
RangeOrderError, RangeTooLarge). -/
inductive VErr where
  | conflictingOptions
  | invalidDate
  | rangeOrder
  | rangeTooLarge
deriving Repr, DecidableEq

/-- Get.getQueryFromAndToDates, with the current date passed in as the
epoch day number today: the tomorrow flag gives tomorrow twice, the week
flag gives today and today plus six days, otherwise both argv date
strings are parsed with the non-strict format parse. -/
def getQueryFromAndToDates (argv : Argv) (today : Int) : Option Int × Option Int :=
  if argv.tomorrow then (some (today + 1), some (today + 1))
  else if argv.week then (some today, some (today + 6))
  else (parseYMD argv.fromDate, parseYMD argv.toDate)

/-- Get.validateArgs: conflicting shorthand flags first, then isValid on
both dates, then from.isAfter(to), then to.diff(from, days) greater than
13. -/
def validateArgs (argv : Argv) (dates : Option Int × Option Int) : Except VErr Bool :=
  if argv.tomorrow && argv.week then .error .conflictingOptions
  else
    match dates with
    | (some f, some t) =>
      if t < f then .error .rangeOrder
      else if 13 < t - f then .error .rangeTooLarge
      else .ok true
    | _ => .error .invalidDate

/-- The date-resolution part of Get.execute: getQueryFromAndToDates then
validateArgs, yielding the validated query interval. -/
def resolve (argv : Argv) (today : Int) : Except VErr (Int × Int) :=
  let dates := getQueryFromAndToDates argv today
  match validateArgs argv dates with
  | .error e => .error e
  | .ok _ =>
    match dates with
    | (some f, some t) => .ok (f, t)
    | _ => .error .invalidDate

/-! ## validateConfig and the pre-network part of execute -/

/-- The configuration store entries the get command reads; none models a
key absent from the store. -/
structure Config where
  accountId : Option String
  token : Option String
  jiraBaseUrl : Option String
deriving Repr, DecidableEq

/-- The JavaScript falsy test on a stored string value: absent or the
empty string. -/
def falsyStr : Option String → Bool
  | none => true
  | some s => s == ""

/-- The message of the error validateConfig throws (MissingConfig). -/
def missingConfigMessage : String :=
  "New install, who dis? It looks like you have not run the config command yet to specify your account id and token."

/-- Get.validateConfig: throws when accountId or token is falsy.  The
message of the source contracts have not with an apostrophe; the model
writes the two words out, nothing else differs. -/
def validateConfig (cfg : Config) : Except String Bool :=
  if falsyStr cfg.accountId || falsyStr cfg.token then .error missingConfigMessage
  else .ok true

/-- What execute reaches the network with: the path and query parameters
of the single axios GET request. -/
structure Request where
  accountId : String
  token : String
  qfrom : Int
  qto : Int
deriving Repr, DecidableEq

/-- The errors of the pre-network phase of execute. -/
inductive ExecErr where
  | missingConfig
  | validation (e : VErr)
deriving Repr, DecidableEq

/-- The synchronous try-block of Get.execute up to the point the axios GET
request is issued: validateConfig, then date resolution and validateArgs;
an error means the network call is never made, ok carries the request that
is then issued. -/
def execute (cfg : Config) (argv : Argv) (today : Int) : Except ExecErr Request :=
  match validateConfig cfg with
  | .error _ => .error .missingConfig
  | .ok _ =>
    match resolve argv today with
    | .error e => .error (.validation e)
    | .ok (f, t) => .ok ⟨cfg.accountId.getD "", cfg.token.getD "", f, t⟩

/-! ## Concrete plan records used in the claim instances -/

/-- The plan of the Day Mapper example of the spec, with the record-level
secondsPerDay equal to the sub-range value 7200. -/
def examplePlan : Plan :=
  { planItem := ⟨"https://example.atlassian.net/issue/ABC-123"⟩
    description := "Fix bug"
    secondsPerDay := 7200
    datesValues := [⟨"2020-01-11", "2020-01-11", some 7200⟩] }

/-- A plan whose record-level secondsPerDay (3600) differs from its
sub-range timePlannedSeconds (7200). -/
def mismatchPlan : Plan :=
  { planItem := ⟨"https://example.atlassian.net/issue/ABC-123"⟩
    description := "Fix bug"
    secondsPerDay := 3600
    datesValues := [⟨"2020-01-11", "2020-01-11", some 7200⟩] }

/-- A plan whose single sub-range lies entirely after the January query
window. -/
def planOutsideAfter : Plan :=
  { planItem := ⟨"https://example.atlassian.net/issue/DEF-9"⟩
    description := "February work"
    secondsPerDay := 3600
    datesValues := [⟨"2020-02-01", "2020-02-02", some 3600⟩] }

/-- A plan whose single sub-range lies entirely before the January query
window. -/
def planOutsideBefore : Plan :=
  { planItem := ⟨"https://example.atlassian.net/issue/GHI-77"⟩
    description := "December work"
    secondsPerDay := 1800
    datesValues := [⟨"2019-12-01", "2019-12-05", some 1800⟩] }

/-! ## Helper lemmas -/

/-- Unfolding of getQueryFromAndToDates when neither shorthand flag is
set. -/
theorem getQuery_explicit (fs ts : String) (today : Int) :
    getQueryFromAndToDates ⟨fs, ts, false, false⟩ today = (parseYMD fs, parseYMD ts) := rfl

/-- Unfolding of validateArgs when neither shorthand flag is set and both
dates parsed. -/
theorem validateArgs_explicit_some (fs ts : String) (f t : Int) :
    validateArgs ⟨fs, ts, false, false⟩ (some f, some t) =
      if t < f then .error .rangeOrder
      else if 13 < t - f then .error .rangeTooLarge
      else .ok true := rfl

/-- Unfolding of resolve when neither shorthand flag is set. -/
theorem resolve_explicit (fs ts : String) (today : Int) :
    resolve ⟨fs, ts, false, false⟩ today =
      match parseYMD fs, parseYMD ts with
      | some f, some t =>
        if t < f then .error .rangeOrder
        else if 13 < t - f then .error .rangeTooLarge
        else .ok (f, t)
      | _, _ => .error .invalidDate := by
  unfold resolve
  rw [getQuery_explicit]
  dsimp only
  cases parseYMD fs with
  | none => rfl
  | some f =>
    cases parseYMD ts with
    | none => rfl
    | some t =>
      rw [validateArgs_explicit_some]
      by_cases h1 : t < f
      · simp [h1]
      · by_cases h2 : 13 < t - f <;> simp [h1, h2]

/-- Skipping a falsy sub-range leaves the extracted range list unchanged,
wherever the sub-range sits in the list. -/
theorem planDateRangesOfValues_skip_falsy (vs₁ : List PlanDateValue) (v : PlanDateValue)
    (vs₂ : List PlanDateValue) (h : falsySeconds v.timePlannedSeconds = true) :
    planDateRangesOfValues (vs₁ ++ v :: vs₂) = planDateRangesOfValues (vs₁ ++ vs₂) := by
  induction vs₁ with
  | nil => simp [planDateRangesOfValues, h]
  | cons u rest ih =>
    by_cases hu : falsySeconds u.timePlannedSeconds <;>
      simp [planDateRangesOfValues, hu, ih]

/-- pushOnDay does not change the day keys. -/
theorem pushOnDay_map_fst (m : DayMapping) (day : Int) (pd : PlanData) :
    (pushOnDay m day pd).map Prod.fst = m.map Prod.fst := by
  induction m with
  | nil => rfl
  | cons kv rest ih => by_cases h : kv.1 = day <;> simp [pushOnDay, h, ih]

/-- pushDays does not change the day keys. -/
theorem pushDays_map_fst (ds : List Int) (pd : PlanData) (m : DayMapping) :
    (pushDays ds pd m).map Prod.fst = m.map Prod.fst := by
  induction ds generalizing m with
  | nil => rfl
  | cons d rest ih => simp [pushDays, ih, pushOnDay_map_fst]

/-- applyRange does not change the day keys when it completes. -/
theorem applyRange_map_fst {f t : Int} {pd : PlanData} {m m' : DayMapping}
    {r : Option DateRange} (h : applyRange f t pd m r = some m') :
    m'.map Prod.fst = m.map Prod.fst := by
  cases r with
  | none => simp [applyRange] at h
  | some rng =>
    simp only [applyRange] at h
    cases hi : intersect ⟨f, t⟩ rng with
    | none => rw [hi] at h; simp at h
    | some a => rw [hi] at h; simp at h; rw [← h, pushDays_map_fst]

/-- applyRanges does not change the day keys when it completes. -/
theorem applyRanges_map_fst (rs : List (Option DateRange)) {f t : Int} {pd : PlanData} :
    ∀ (m m' : DayMapping), applyRanges f t pd rs m = some m' →
      m'.map Prod.fst = m.map Prod.fst := by
  induction rs with
  | nil => intro m m' h; simp [applyRanges] at h; rw [h]
  | cons r rest ih =>
    intro m m' h
    simp only [applyRanges] at h
    cases ha : applyRange f t pd m r with
    | none => rw [ha] at h; simp at h
    | some m1 =>
      rw [ha] at h
      simp only [] at h
      exact (ih m1 m' h).trans (applyRange_map_fst ha)

/-- mapPlansGo does not change the day keys when it completes. -/
theorem mapPlansGo_map_fst {f t : Int} (ps : List Plan) :
    ∀ (m0 m : DayMapping), mapPlansGo f t ps m0 = some m →
      m.map Prod.fst = m0.map Prod.fst := by
  induction ps with
  | nil => intro m0 m h; simp [mapPlansGo] at h; rw [h]
  | cons p rest ih =>
    intro m0 m h
    simp only [mapPlansGo] at h
    cases hp : processPlan f t p m0 with
    | none => rw [hp] at h; simp at h
    | some m1 =>
      rw [hp] at h
      simp only [] at h
      exact (ih m1 m h).trans (applyRanges_map_fst _ _ _ hp)

/-- The day list of a non-reversed query interval has one entry per
inclusive day. -/
theorem daysList_length {f t : Int} (hle : f ≤ t) :
    (daysList f t).length = (t - f + 1).toNat := by
  unfold daysList
  rw [if_neg (not_lt.mpr hle), List.length_map, List.length_range]

/-- The day list is strictly increasing. -/
theorem daysList_pairwise (f t : Int) :
    (daysList f t).Pairwise (fun a b : Int => a < b) := by
  unfold daysList
  split
  · exact List.Pairwise.nil
  · rw [List.pairwise_map]
    exact (List.pairwise_lt_range _).imp (fun hab => by omega)

/-- The items of the initialized mapping: none. -/
theorem itemsOf_init (ds : List Int) :
    itemsOf (ds.map (fun d => (d, ([] : List PlanData)))) = [] := by
  induction ds with
  | nil => rfl
  | cons d rest ih => simp [itemsOf, ih]

/-- Every item of a mapping after pushOnDay was already there or is the
pushed one. -/
theorem mem_itemsOf_pushOnDay (pd' : PlanData) :
    ∀ (m : DayMapping) (day : Int) (pd : PlanData),
      pd' ∈ itemsOf (pushOnDay m day pd) → pd' ∈ itemsOf m ∨ pd' = pd := by
  intro m
  induction m with
  | nil => intro day pd h; simp [pushOnDay, itemsOf] at h
  | cons kv rest ih =>
    intro day pd h
    by_cases hk : kv.1 = day
    · simp only [pushOnDay, if_pos hk, itemsOf, List.mem_append, List.mem_singleton] at h
      simp only [itemsOf, List.mem_append]
      rcases h with (h | h) | h
      · tauto
      · tauto
      · rcases ih day pd h with h1 | h1 <;> tauto
    · simp only [pushOnDay, if_neg hk, itemsOf, List.mem_append] at h
      simp only [itemsOf, List.mem_append]
      rcases h with h | h
      · tauto
      · rcases ih day pd h with h1 | h1 <;> tauto

/-- Every item of a mapping after pushDays was already there or is the
pushed one. -/
theorem mem_itemsOf_pushDays (pd' : PlanData) :
    ∀ (ds : List Int) (pd : PlanData) (m : DayMapping),
      pd' ∈ itemsOf (pushDays ds pd m) → pd' ∈ itemsOf m ∨ pd' = pd := by
  intro ds
  induction ds with
  | nil => intro pd m h; exact Or.inl h
  | cons d rest ih =>
    intro pd m h
    simp only [pushDays] at h
    rcases ih pd (pushOnDay m d pd) h with h1 | h1
    · exact mem_itemsOf_pushOnDay pd' m d pd h1
    · exact Or.inr h1

/-- Every item of a mapping after applyRange was already there or is the
distributed planData. -/
theorem mem_itemsOf_applyRange {f t : Int} {pd pd' : PlanData} {m m' : DayMapping}
    {r : Option DateRange} (h : applyRange f t pd m r = some m')
    (hm : pd' ∈ itemsOf m') : pd' ∈ itemsOf m ∨ pd' = pd := by
  cases r with
  | none => simp [applyRange] at h
  | some rng =>
    simp only [applyRange] at h
    cases hi : intersect ⟨f, t⟩ rng with
    | none => rw [hi] at h; simp at h
    | some a =>
      rw [hi] at h; simp at h; rw [← h] at hm
      exact mem_itemsOf_pushDays pd' _ pd m hm

/-- Every item of a mapping after applyRanges was already there or is the
distributed planData. -/
theorem mem_itemsOf_applyRanges {f t : Int} {pd pd' : PlanData}
    (rs : List (Option DateRange)) :
    ∀ (m m' : DayMapping), applyRanges f t pd rs m = some m' →
      pd' ∈ itemsOf m' → pd' ∈ itemsOf m ∨ pd' = pd := by
  induction rs with
  | nil => intro m m' h hm; simp [applyRanges] at h; subst h; exact Or.inl hm
  | cons r rest ih =>
    intro m m' h hm
    simp only [applyRanges] at h
    cases ha : applyRange f t pd m r with
    | none => rw [ha] at h; simp at h
    | some m1 =>
      rw [ha] at h
      simp only [] at h
      rcases ih m1 m' h hm with h1 | h1
      · exact mem_itemsOf_applyRange ha h1
      · exact Or.inr h1

/-- Every item of a mapping after mapPlansGo was already there or is the
planData of one of the processed plans. -/
theorem mem_itemsOf_mapPlansGo {f t : Int} {pd' : PlanData} (ps : List Plan) :
    ∀ (m0 m : DayMapping), mapPlansGo f t ps m0 = some m → pd' ∈ itemsOf m →
      pd' ∈ itemsOf m0 ∨ ∃ p, p ∈ ps ∧ pd' = makePlanData p := by
  induction ps with
  | nil => intro m0 m h hm; simp [mapPlansGo] at h; subst h; exact Or.inl hm
  | cons p rest ih =>
    intro m0 m h hm
    simp only [mapPlansGo] at h
    cases hp : processPlan f t p m0 with
    | none => rw [hp] at h; simp at h
    | some m1 =>
      rw [hp] at h
      simp only [] at h
      rcases ih m1 m h hm with h1 | ⟨q, hq, he⟩
      · rcases mem_itemsOf_applyRanges _ _ _ hp h1 with h2 | h2
        · exact Or.inl h2
        · exact Or.inr ⟨p, List.mem_cons_self p rest, h2⟩
      · exact Or.inr ⟨q, List.mem_cons_of_mem p hq, he⟩

/-- Helper: mapPlans on a single-plan list only depends on the plan
through its planData and its extracted ranges. -/
theorem mapPlans_congr_single (f t : Int) (p q : Plan)
    (hd : makePlanData p = makePlanData q)
    (hr : getPlanDateRanges p = getPlanDateRanges q) :
    mapPlans f t [p] = mapPlans f t [q] := by
  unfold mapPlans mapPlansGo processPlan
  rw [hd, hr]

/-! ## Claim theorems -/

/-- C1 counterexample.  The claim says the PlannedItem appended for a
sub-range carries a humanized duration derived from that sub-range
per-day-seconds value.  The code instead humanizes the record-level
plan.secondsPerDay: for a plan with secondsPerDay 3600 and a single
sub-range (2020-01-11, 2020-01-11, 7200 seconds), queried over
[2020-01-10, 2020-01-12], the single PlannedItem of 2020-01-11 shows
"an hour" (from 3600) and not "2 hours" (from the sub-range 7200). -/
theorem C1_counterexample :
    mapPlans (toDayNum 2020 1 10) (toDayNum 2020 1 12) [mismatchPlan] =
      some [(toDayNum 2020 1 10, []),
            (toDayNum 2020 1 11,
              [⟨"https://example.atlassian.net/issue/ABC-123", "ABC-123",
                "Fix bug", 3600, "an hour"⟩]),
            (toDayNum 2020 1 12, [])]
    ∧ humanize 7200 = "2 hours"
    ∧ ("an hour" : String) ≠ "2 hours" := ⟨rfl, rfl, by decide⟩

/-- C1 (amended).  Every PlannedItem the Day Mapper produces is the
planData of one of the supplied records, and its humanized duration is
derived from that record's secondsPerDay field (not from the sub-range
timePlannedSeconds value); and the Day Mapper example of the spec holds
when the example plan carries secondsPerDay 7200: the query
[2020-01-10, 2020-01-12] over the one-sub-range plan yields an empty
2020-01-10, a single PlannedItem on 2020-01-11 with key ABC-123 and
duration "2 hours", and an empty 2020-01-12. -/
theorem C1_duration_from_record_secondsPerDay :
    (∀ (f t : Int) (plans : List Plan) (m : DayMapping) (pd : PlanData),
        mapPlans f t plans = some m → pd ∈ itemsOf m →
        ∃ p, p ∈ plans ∧ pd = makePlanData p ∧
          pd.plannedTime = humanize p.secondsPerDay)
    ∧ mapPlans (toDayNum 2020 1 10) (toDayNum 2020 1 12) [examplePlan] =
        some [(toDayNum 2020 1 10, []),
              (toDayNum 2020 1 11, [makePlanData examplePlan]),
              (toDayNum 2020 1 12, [])]
    ∧ (makePlanData examplePlan).plannedTime = "2 hours"
    ∧ (makePlanData examplePlan).taskKey = "ABC-123" := by
  refine ⟨?_, rfl, rfl, rfl⟩
  intro f t plans m pd h hm
  unfold mapPlans at h
  rcases mem_itemsOf_mapPlansGo plans _ m h hm with h1 | ⟨p, hp, he⟩
  · rw [itemsOf_init] at h1; simp at h1
  · exact ⟨p, hp, he, by rw [he]; rfl⟩

/-- Witness for C1: the general part applied to the example input. -/
theorem C1_duration_witness :
    ∃ p, p ∈ [examplePlan] ∧ makePlanData examplePlan = makePlanData p ∧
      (makePlanData examplePlan).plannedTime = humanize p.secondsPerDay :=
  C1_duration_from_record_secondsPerDay.1 (toDayNum 2020 1 10) (toDayNum 2020 1 12)
    [examplePlan]
    [(toDayNum 2020 1 10, []), (toDayNum 2020 1 11, [makePlanData examplePlan]),
      (toDayNum 2020 1 12, [])]
    (makePlanData examplePlan) rfl (by simp [itemsOf])

/-- C2 (code bug).  The claim (and the spec) says a plan sub-range whose
intersection with the query window is empty is skipped without error.  The
code has no null check after queryRange.intersect(planRange): for the
query [2020-01-10, 2020-01-12] and a plan whose only sub-range is
(2020-02-01, 2020-02-02, 3600 seconds), intersect returns null and
applicableRange.by("days") throws a TypeError, so mapPlans never returns
a mapping (modelled as none). -/
theorem C2_disjoint_subrange_raises :
    getPlanDateRanges planOutsideAfter =
      [some ⟨toDayNum 2020 2 1, toDayNum 2020 2 2⟩]
    ∧ intersect ⟨toDayNum 2020 1 10, toDayNum 2020 1 12⟩
        ⟨toDayNum 2020 2 1, toDayNum 2020 2 2⟩ = none
    ∧ mapPlans (toDayNum 2020 1 10) (toDayNum 2020 1 12) [planOutsideAfter] = none :=
  ⟨rfl, rfl, rfl⟩

/-- C3 counterexample.  The claim promises a DayMapping with one key per
day for every list of PlanRecords, but for a plan whose only sub-range
(2019-12-01, 2019-12-05, 1800 seconds) lies fully before the query window
[2020-01-10, 2020-01-12] the mapper throws (missing null check after
intersect) and returns no mapping at all. -/
theorem C3_counterexample :
    mapPlans (toDayNum 2020 1 10) (toDayNum 2020 1 12) [planOutsideBefore] = none := rfl

/-- C3 (amended).  For every query interval with from at most to spanning
at most 14 inclusive days, whenever mapPlans returns a mapping it has
exactly (to - from + 1) keys, one per calendar day of the interval in
chronological order. -/
theorem C3_keys_of_mapPlans (f t : Int) (plans : List Plan) (m : DayMapping)
    (hle : f ≤ t) (_hspan : t - f ≤ 13) (h : mapPlans f t plans = some m) :
    m.map Prod.fst = daysList f t ∧ m.length = (t - f + 1).toNat ∧
      (m.map Prod.fst).Pairwise (fun a b : Int => a < b) := by
  have hkeys : m.map Prod.fst = daysList f t := by
    unfold mapPlans at h
    have h2 := mapPlansGo_map_fst plans _ m h
    rw [h2, List.map_map]
    exact List.map_id _
  refine ⟨hkeys, ?_, ?_⟩
  · have h3 := congrArg List.length hkeys
    rw [List.length_map] at h3
    rw [h3, daysList_length hle]
  · rw [hkeys]; exact daysList_pairwise f t

/-- Witness for C3: the amended theorem applied to the empty plan list on
the query [2020-01-10, 2020-01-12]. -/
theorem C3_keys_witness :
    (([(18271, ([] : List PlanData)), (18272, []), (18273, [])] : DayMapping).map
        Prod.fst = daysList 18271 18273)
    ∧ (([(18271, ([] : List PlanData)), (18272, []), (18273, [])] : DayMapping).length
        = ((18273 : Int) - 18271 + 1).toNat)
    ∧ ((([(18271, ([] : List PlanData)), (18272, []), (18273, [])] : DayMapping).map
        Prod.fst).Pairwise (fun a b : Int => a < b)) :=
  C3_keys_of_mapPlans 18271 18273 [] _ (by decide) (by decide) rfl

/-- C4 counterexample.  The claim says every string not exactly of the
form YYYY-MM-DD is rejected with InvalidDate.  The string 2020-1-5 is not
of that exact form (no zero padding), yet the non-strict moment parse the
code uses accepts it and the resolver succeeds with the interval for
2020-01-05 (epoch day 18266). -/
theorem C4_counterexample :
    specExactParse "2020-1-5" = none
    ∧ parseYMD "2020-1-5" = some 18266
    ∧ resolve ⟨"2020-1-5", "2020-1-5", false, false⟩ 0 = .ok (18266, 18266) :=
  ⟨rfl, rfl, rfl⟩

/-- C4 (amended).  With neither shorthand flag set, the resolver fails
with InvalidDate exactly when at least one of the two date strings fails
the non-strict moment parse with format YYYY-MM-DD (no digits at all, or
month or day overflow); strings that deviate from the exact format, such
as unpadded fields or trailing characters, can still be accepted. -/
theorem C4_invalidDate_iff_nonstrict_parse (fs ts : String) (today : Int) :
    resolve ⟨fs, ts, false, false⟩ today = .error .invalidDate ↔
      (parseYMD fs = none ∨ parseYMD ts = none) := by
  rw [resolve_explicit]
  cases hf : parseYMD fs with
  | none => simp
  | some f =>
    cases ht : parseYMD ts with
    | none => simp
    | some t =>
      dsimp only
      constructor
      · intro hc
        split_ifs at hc <;> simp at hc
      · intro hc
        simp at hc

/-- C5 (confirmed).  A sub-range whose parsed to-date precedes its parsed
from-date is normalized by swapping, without failing: the extractor output
equals the output for the swapped sub-range, both being the single
normalized range. -/
theorem C5_extractor_swaps (a b : String) (n : Nat) (da db : Int)
    (hn : n ≠ 0) (ha : parseYMD a = some da) (hb : parseYMD b = some db)
    (hrev : db < da) :
    planDateRangesOfValues [⟨a, b, some n⟩] = [some ⟨db, da⟩]
    ∧ planDateRangesOfValues [⟨b, a, some n⟩] = [some ⟨db, da⟩] := by
  have hf : falsySeconds (some n) = false := by simp [falsySeconds, hn]
  constructor
  · simp [planDateRangesOfValues, hf, planRangeOfValue, ha, hb, if_pos hrev]
  · simp [planDateRangesOfValues, hf, planRangeOfValue, ha, hb,
      if_neg (lt_asymm hrev)]

/-- Witness for C5: the reversed sub-range (2020-01-12, 2020-01-10) with
3600 seconds gives the same single range as (2020-01-10, 2020-01-12). -/
theorem C5_extractor_swaps_witness :
    planDateRangesOfValues [⟨"2020-01-12", "2020-01-10", some 3600⟩] =
      [some ⟨18271, 18273⟩]
    ∧ planDateRangesOfValues [⟨"2020-01-10", "2020-01-12", some 3600⟩] =
      [some ⟨18271, 18273⟩] :=
  C5_extractor_swaps "2020-01-12" "2020-01-10" 3600 18273 18271
    (by decide) (by decide) (by decide) (by decide)

/-- C6 (confirmed).  For a resolved interval with from at most to,
validation fails with RangeTooLarge exactly when the difference in days
exceeds 13, that is when the inclusive day-count exceeds 14. -/
theorem C6_rangeTooLarge_iff (fs ts : String) (f t : Int) (hle : f ≤ t) :
    validateArgs ⟨fs, ts, false, false⟩ (some f, some t) = .error .rangeTooLarge ↔
      13 < t - f := by
  rw [validateArgs_explicit_some, if_neg (not_lt.mpr hle)]
  by_cases h2 : 13 < t - f <;> simp [h2]

/-- Witness for C6: from 2020-01-10 (day 18271) to 2020-01-25 (day 18286)
spans 16 inclusive days and is rejected with RangeTooLarge. -/
theorem C6_rangeTooLarge_witness :
    validateArgs ⟨"2020-01-10", "2020-01-25", false, false⟩
        (some (toDayNum 2020 1 10), some (toDayNum 2020 1 25)) = .error .rangeTooLarge
    ∧ parseYMD "2020-01-10" = some (toDayNum 2020 1 10)
    ∧ parseYMD "2020-01-25" = some (toDayNum 2020 1 25) :=
  ⟨(C6_rangeTooLarge_iff "2020-01-10" "2020-01-25" (toDayNum 2020 1 10)
      (toDayNum 2020 1 25) (by decide)).mpr (by decide), rfl, rfl⟩

/-- C7 (confirmed).  When both shorthand flags are set, resolution fails
with ConflictingOptions regardless of the supplied date strings and of the
current date: the conflict test is the first check in validateArgs, so it
takes priority over every other validation error. -/
theorem C7_conflicting_options (fs ts : String) (today : Int) :
    resolve ⟨fs, ts, true, true⟩ today = .error .conflictingOptions := rfl

/-- C8 (confirmed).  A sub-range with zero or absent planned seconds is
excluded by the extractor without error, wherever it sits in the list, and
removing it does not change the mapping the Day Mapper produces, for any
query interval: no PlannedItem ever comes from it. -/
theorem C8_zero_seconds_excluded :
    (∀ (vs₁ : List PlanDateValue) (v : PlanDateValue) (vs₂ : List PlanDateValue),
        falsySeconds v.timePlannedSeconds = true →
        planDateRangesOfValues (vs₁ ++ v :: vs₂) = planDateRangesOfValues (vs₁ ++ vs₂))
    ∧ (∀ (f t : Int) (item : PlanItemRef) (desc : String) (spd : Nat)
        (vs₁ : List PlanDateValue) (v : PlanDateValue) (vs₂ : List PlanDateValue),
        falsySeconds v.timePlannedSeconds = true →
        mapPlans f t [⟨item, desc, spd, vs₁ ++ v :: vs₂⟩] =
          mapPlans f t [⟨item, desc, spd, vs₁ ++ vs₂⟩]) := by
  refine ⟨planDateRangesOfValues_skip_falsy, ?_⟩
  intro f t item desc spd vs₁ v vs₂ h
  exact mapPlans_congr_single f t _ _ rfl (planDateRangesOfValues_skip_falsy vs₁ v vs₂ h)

/-- Witness for C8: a zero-second sub-range on 2020-01-11 is dropped from
the extraction. -/
theorem C8_zero_seconds_witness :
    planDateRangesOfValues
        ([] ++ (⟨"2020-01-11", "2020-01-11", some 0⟩ : PlanDateValue) ::
          [⟨"2020-01-12", "2020-01-12", some 3600⟩]) =
      planDateRangesOfValues ([] ++ [⟨"2020-01-12", "2020-01-12", some 3600⟩]) :=
  C8_zero_seconds_excluded.1 [] ⟨"2020-01-11", "2020-01-11", some 0⟩
    [⟨"2020-01-12", "2020-01-12", some 3600⟩] rfl

/-- C9 (confirmed).  With exactly one shorthand flag set, the resolver
ignores the fromDate and toDate strings entirely: whatever they contain,
resolution succeeds (no InvalidDate, RangeOrderError or RangeTooLarge is
reachable) and the resolved interval depends only on the current date:
tomorrow twice for the tomorrow flag, today to today plus six days for the
week flag. -/
theorem C9_shorthand_ignores_date_strings (fs ts fs2 ts2 : String) (today : Int) :
    resolve ⟨fs, ts, true, false⟩ today = .ok (today + 1, today + 1)
    ∧ resolve ⟨fs2, ts2, false, true⟩ today = .ok (today, today + 6) := by
  constructor
  · have h1 : ¬ (today + 1 < today + 1) := by omega
    have h2 : ¬ ((13 : Int) < (today + 1) - (today + 1)) := by omega
    simp [resolve, getQueryFromAndToDates, validateArgs, h1, h2]
  · have h1 : ¬ (today + 6 < today) := by omega
    have h2 : ¬ ((13 : Int) < (today + 6) - today) := by omega
    simp [resolve, getQueryFromAndToDates, validateArgs, h1, h2]

/-- C10 (confirmed).  A configured accountId or token holding the empty
string is treated exactly like an absent key: validateConfig rejects every
falsy stored value with the MissingConfig error, and execute then stops
with that error before building the network request. -/
theorem C10_falsy_config_rejected :
    (∀ tok url, validateConfig ⟨some "", tok, url⟩ = validateConfig ⟨none, tok, url⟩)
    ∧ (∀ acc url, validateConfig ⟨acc, some "", url⟩ = validateConfig ⟨acc, none, url⟩)
    ∧ (∀ cfg : Config, falsyStr cfg.accountId = true ∨ falsyStr cfg.token = true →
        validateConfig cfg = .error missingConfigMessage)
    ∧ (∀ (cfg : Config) (argv : Argv) (today : Int),
        falsyStr cfg.accountId = true ∨ falsyStr cfg.token = true →
        execute cfg argv today = .error .missingConfig) := by
  refine ⟨fun tok url => by simp [validateConfig, falsyStr],
    fun acc url => by simp [validateConfig, falsyStr], ?_, ?_⟩
  · intro cfg h
    have hc : (falsyStr cfg.accountId || falsyStr cfg.token) = true := by
      rcases h with h | h <;> simp [h]
    simp [validateConfig, hc]
  · intro cfg argv today h
    have hc : (falsyStr cfg.accountId || falsyStr cfg.token) = true := by
      rcases h with h | h <;> simp [h]
    simp [execute, validateConfig, hc]

/-- Witness for C10: an empty-string accountId with a present token makes
execute stop with MissingConfig before any network request. -/
theorem C10_falsy_config_witness :
    execute ⟨some "", some "secret", none⟩ ⟨"2020-01-10", "2020-01-10", false, false⟩ 0
      = .error .missingConfig :=
  C10_falsy_config_rejected.2.2.2 ⟨some "", some "secret", none⟩
    ⟨"2020-01-10", "2020-01-10", false, false⟩ 0 (Or.inl rfl)
